import Mathlib

/-!
Shallow embedding of the Shield transaction classification pipeline and
analytics engine.  Definitions are translated from the JavaScript source:
the protocol registry and `main`/`processTransaction` classification
pipeline, and the eleven analytics functions together with their query
dispatcher.  JavaScript numbers are modelled by `Rat` (token amounts) and
`Int` (timestamps and lamport balances); JavaScript objects used as
string-keyed dictionaries are modelled by insertion-ordered association
lists; a JavaScript `Set` is modelled by an insertion-ordered
duplicate-free list; a thrown `TypeError` is modelled by `Option.none`.
The wall-clock values the source reads (`Date.now()`, start of local day,
the ISO date string) are passed as explicit parameters.  The
`processedAt`/`lastUpdated` fields of a normalized transaction, which are
fresh wall-clock strings, are omitted from the record since no property
here mentions them.
-/

/-- `startsWithChars s pat` holds when `pat` is an initial segment of `s`
(both as character lists).  Building block for JavaScript substring tests. -/
def startsWithChars : List Char → List Char → Bool
  | _, [] => true
  | [], _ :: _ => false
  | c :: cs, d :: ds => c = d && startsWithChars cs ds

/-- Model of JavaScript `s.includes(pat)` on character lists. -/
def containsChars : List Char → List Char → Bool
  | [], pat => pat.isEmpty
  | c :: cs, pat => startsWithChars (c :: cs) pat || containsChars cs pat

/-- Model of JavaScript `s.includes(pat)` for strings. -/
def jsIncludes (s pat : String) : Bool :=
  containsChars s.data pat.data

/-- Splits `s` at the first occurrence of `pat`, returning the part before
the occurrence and the part after it; `none` when `pat` does not occur. -/
def breakAt (pat : List Char) : List Char → Option (List Char × List Char)
  | [] => none
  | c :: cs =>
    if startsWithChars (c :: cs) pat then
      some ([], (c :: cs).drop pat.length)
    else
      match breakAt pat cs with
      | none => none
      | some (b, a) => some (c :: b, a)

/-- Model of JavaScript `s.split(pat)[1]`: the segment strictly between the
first and second occurrence of `pat` (the rest of the string when `pat`
occurs only once); `none` (JavaScript `undefined`) when `pat` does not
occur at all. -/
def jsSplitSecond (s pat : String) : Option String :=
  match breakAt pat.data s.data with
  | none => none
  | some (_, rest) =>
    match breakAt pat.data rest with
    | none => some (String.mk rest)
    | some (b, _) => some (String.mk b)

/-- Model of `[...new Set(l)]`: duplicates removed, first occurrence kept,
insertion order preserved. -/
def jsSetList {α : Type} [DecidableEq α] (l : List α) : List α :=
  l.foldl (fun acc x => if x ∈ acc then acc else acc ++ [x]) []

/-- Reads a key of a JavaScript object modelled as an insertion-ordered
association list (`undefined` is `none`). -/
def objGet {V : Type} (o : List (String × V)) (k : String) : Option V :=
  (o.find? (fun p => p.1 = k)).map (fun p => p.2)

/-- Writes a key of a JavaScript object modelled as an insertion-ordered
association list: an existing key is updated in place, a new key is
appended at the end. -/
def objSet {V : Type} (o : List (String × V)) (k : String) (v : V) :
    List (String × V) :=
  if (o.find? (fun p => p.1 = k)).isSome then
    o.map (fun p => if p.1 = k then (k, v) else p)
  else
    o ++ [(k, v)]

/-- A JavaScript number produced by `Math.max(...)`, which is `-Infinity`
when the spread argument list is empty. -/
inductive JsNum : Type where
  | negInf : JsNum
  | num : Rat → JsNum
deriving DecidableEq, Repr

/-- Model of JavaScript `Math.max(...l)`. -/
def jsMaxNum (l : List Rat) : JsNum :=
  l.foldl
    (fun acc q =>
      match acc with
      | JsNum.negInf => JsNum.num q
      | JsNum.num m => JsNum.num (max m q))
    JsNum.negInf

/-- Model of JavaScript `arr.slice(0, stop)` for an `Int`-valued `stop`:
a negative `stop` counts from the end, and the result is clamped to the
array bounds. -/
def jsSliceTo {α : Type} (l : List α) (stop : Int) : List α :=
  let n : Int := l.length
  let e : Int := if stop < 0 then max (n + stop) 0 else min stop n
  l.take e.toNat

/-- One entry of the protocol registry `PROTOCOL_IDS`. -/
structure RegistryEntry : Type where
  protocol : String
  subType : String
  programId : String
deriving DecidableEq, Repr

/-- The static registry of tracked program ids, in the literal order of
the source object (`Object.entries` enumerates insertion order). -/
def PROTOCOL_IDS : List RegistryEntry :=
  [⟨"MARGINFI", "MAIN", "MFv2hWf31Z9kbCa1snEPYctwafyhdvnV7FZnsebVacA"⟩,
   ⟨"JUPITER", "SWAPS", "JUP6LkbZbjS1jKKwapdHNy74zcZ3tLUZoi5QNyVTaV4"⟩,
   ⟨"JUPITER", "LIMIT_ORDER", "jupoNjAxXgZ4rjzxzPMP4oxduvQsQtZzyknqvzYNrNu"⟩,
   ⟨"JUPITER", "DCA", "DCA265Vj8a9CEuX1eb1LWRnDT7uK6q1xMipnNyatn23M"⟩,
   ⟨"OPENBOOK", "V2", "opnb2LAfJYbRMAHHvqjCwQxanZn7ReEHp1k81EohpZb"⟩,
   ⟨"RAYDIUM", "OPEN_BOOK", "675kPX9MHTjS2zt1qfr1NYHuzeLXfQM9H24wFSUt1Mp8"⟩,
   ⟨"RAYDIUM", "STABLE_SWAP_AMM", "5quBtoiQqxF9Jv6KYKctB59NT3gtJD2Y65kdnB1Uev3h"⟩,
   ⟨"RAYDIUM", "STAKING", "EhhTKczWMGQt46ynNeRX1WfeagwwJd7ufHvCDjRxjo5Q"⟩,
   ⟨"RAYDIUM", "STANDARD_AMM", "CPMMoo8L3F4NbTegBCKVNunggL7H1ZpdTHKxQB5qKP1C"⟩,
   ⟨"RAYDIUM", "CONCENTRATED_LIQUIDITY", "CAMMCzo5YL8w4VFF8KVHrK22GGUsp5VTaW7grrKgrWqK"⟩]

/-- A protocol classification result `{ protocol, subType }`. -/
structure ProtocolMatch : Type where
  protocol : String
  subType : String
deriving DecidableEq, Repr

/-- `findMatchingProtocol` from the stream filter: scans the registry in
order and returns the first entry whose program id equals the argument. -/
def findMatchingProtocol (programId : String) : Option ProtocolMatch :=
  (PROTOCOL_IDS.find? (fun e => e.programId = programId)).map
    (fun e => ⟨e.protocol, e.subType⟩)

/-- A raw account record `{ pubkey, preBalance, postBalance }`. -/
structure RawAccount : Type where
  pubkey : String
  preBalance : Int
  postBalance : Int
deriving DecidableEq, Repr

/-- The `uiTokenAmount` of a raw token balance entry. -/
structure UiTokenAmount : Type where
  uiAmount : Rat
  decimals : Nat
  amount : String
deriving DecidableEq, Repr

/-- A raw token balance change `{ mint, owner, uiTokenAmount }`. -/
structure RawTokenBalance : Type where
  mint : String
  owner : String
  uiTokenAmount : UiTokenAmount
deriving DecidableEq, Repr

/-- A raw instruction: index and data bytes plus the accounts and token
balances attached to a program invocation. -/
structure RawInstruction : Type where
  index : Nat
  data : String
  accounts : List RawAccount
  tokenBalances : List RawTokenBalance
deriving DecidableEq, Repr

/-- A nested program invocation `{ programId, instruction }`. -/
structure ProgramInvocation : Type where
  programId : String
  instruction : RawInstruction
deriving DecidableEq, Repr

/-- A raw transaction as delivered by the stream.  Fields that a
JavaScript object may simply lack (`programInvocations`, `type`,
`rawInstruction`) are `Option`s, `none` standing for `undefined`. -/
structure RawTx : Type where
  programId : String
  accounts : List RawAccount
  logs : List String
  signature : String
  slot : Nat
  blockTime : Int
  success : Bool
  tokenBalanceChanges : List RawTokenBalance
  programInvocations : Option (List ProgramInvocation)
  type : Option String
  rawInstruction : Option RawInstruction
deriving DecidableEq, Repr

/-- A normalized token transfer `{ mint, owner, amount, decimals,
rawAmount }`. -/
structure TokenTransfer : Type where
  mint : String
  owner : String
  amount : Rat
  decimals : Nat
  rawAmount : String
deriving DecidableEq, Repr

/-- A normalized account change `{ address, balanceChange }`. -/
structure AccountChange : Type where
  address : String
  balanceChange : Int
deriving DecidableEq, Repr

/-- The `instruction` field of a normalized transaction. -/
structure InstrInfo : Type where
  index : Nat
  data : String
deriving DecidableEq, Repr

/-- The canonical normalized transaction record produced by
`processTransaction` (the two wall-clock string fields are omitted, see
the module docstring).  `type` is `none` when the merged input object had
no `type` property. -/
structure NormalizedTx : Type where
  transactionId : String
  blockSlot : Nat
  timestamp : Int
  success : Bool
  type : Option String
  protocol : String
  subType : String
  program : String
  userWallet : Option String
  userBalanceChange : Int
  tokenTransfers : List TokenTransfer
  accountChanges : List AccountChange
  instruction : InstrInfo
  logs : List String
deriving DecidableEq, Repr

/-- The argument object of `processTransaction`: either the top-level raw
transaction spread together with the registry match, or the `filteredTx`
built from a matching invocation. -/
structure ProcessInput : Type where
  signature : String
  slot : Nat
  blockTime : Int
  type : Option String
  protocol : String
  subType : String
  programId : String
  accounts : List RawAccount
  tokenBalanceChanges : List RawTokenBalance
  success : Bool
  logs : List String
  rawInstruction : Option RawInstruction
deriving DecidableEq, Repr

/-- `processTransaction` from the stream filter.  Reading
`tx.rawInstruction.index` when the object carries no `rawInstruction`
throws a `TypeError`, modelled as `none`.  `accounts[2]?.pubkey || null`
yields `null` both when there is no third account and when its pubkey is
the empty string (falsy). -/
def processTransaction (tx : ProcessInput) : Option NormalizedTx :=
  match tx.rawInstruction with
  | none => none
  | some ri =>
    let userWallet : Option String :=
      match tx.accounts.get? 2 with
      | none => none
      | some a => if a.pubkey = "" then none else some a.pubkey
    let balanceChange : Int :=
      match userWallet with
      | none => 0
      | some w =>
        match tx.accounts.find? (fun a => a.pubkey = w) with
        | none => 0
        | some a => a.postBalance - a.preBalance
    some
      { transactionId := tx.signature
        blockSlot := tx.slot
        timestamp := tx.blockTime
        success := tx.success
        type := tx.type
        protocol := tx.protocol
        subType := tx.subType
        program := tx.programId
        userWallet := userWallet
        userBalanceChange := balanceChange
        tokenTransfers :=
          tx.tokenBalanceChanges.map
            (fun token =>
              { mint := token.mint
                owner := token.owner
                amount := token.uiTokenAmount.uiAmount
                decimals := token.uiTokenAmount.decimals
                rawAmount := token.uiTokenAmount.amount })
        accountChanges :=
          tx.accounts.map
            (fun acc =>
              { address := acc.pubkey
                balanceChange := acc.postBalance - acc.preBalance })
        instruction := { index := ri.index, data := ri.data }
        logs :=
          tx.logs.filter
            (fun log =>
              !jsIncludes log "invoke" && !jsIncludes log "success" &&
                !jsIncludes log "consumed") }

/-- The instruction-type derivation of the invocation branch of `main`:
the first log containing `"Instruction:"` is split on `"Instruction: "`
and the second piece is taken, falling back to `"Unknown"` when it is
`undefined` or the empty string (falsy). -/
def deriveInstructionType (protocolLogs : List String) : String :=
  match protocolLogs.find? (fun log => jsIncludes log "Instruction:") with
  | none => "Unknown"
  | some log =>
    match jsSplitSecond log "Instruction: " with
    | none => "Unknown"
    | some s => if s = "" then "Unknown" else s

/-- The `filteredTx` object built by `main` for a matching invocation. -/
def invocationInput (tx : RawTx) (inv : ProgramInvocation)
    (m : ProtocolMatch) : ProcessInput :=
  let protocolLogs :=
    tx.logs.filter
      (fun log => jsIncludes log inv.programId || jsIncludes log "Instruction:")
  { signature := tx.signature
    slot := tx.slot
    blockTime := tx.blockTime
    type := some (deriveInstructionType protocolLogs)
    protocol := m.protocol
    subType := m.subType
    programId := inv.programId
    accounts := inv.instruction.accounts
    tokenBalanceChanges := inv.instruction.tokenBalances
    success := tx.success
    logs := protocolLogs
    rawInstruction := some inv.instruction }

/-- The merged object `{ ...tx, ...matchingProtocol }` of the top-level
branch of `main`. -/
def topLevelInput (tx : RawTx) (m : ProtocolMatch) : ProcessInput :=
  { signature := tx.signature
    slot := tx.slot
    blockTime := tx.blockTime
    type := tx.type
    protocol := m.protocol
    subType := m.subType
    programId := tx.programId
    accounts := tx.accounts
    tokenBalanceChanges := tx.tokenBalanceChanges
    success := tx.success
    logs := tx.logs
    rawInstruction := tx.rawInstruction }

/-- The invocation loop of `main`: invocations are scanned in order, an
invocation matching the registry and satisfying the filter is normalized
and ends the scan; non-matching or filtered-out invocations are skipped
without ending it. -/
def scanInvocations (protocolFilter : Option String) (tx : RawTx) :
    List ProgramInvocation → Option (List NormalizedTx)
  | [] => some []
  | inv :: rest =>
    match findMatchingProtocol inv.programId with
    | none => scanInvocations protocolFilter tx rest
    | some m =>
      match protocolFilter with
      | none =>
        (processTransaction (invocationInput tx inv m)).map (fun n => [n])
      | some f =>
        if m.protocol = f then
          (processTransaction (invocationInput tx inv m)).map (fun n => [n])
        else
          scanInvocations protocolFilter tx rest

/-- The per-transaction body of the loop in `main`: the contribution of
one raw transaction to the filtered output (`none` models a thrown
`TypeError`, which aborts the whole batch). -/
def processTx (protocolFilter : Option String) (tx : RawTx) :
    Option (List NormalizedTx) :=
  let invocationPart : Option (List NormalizedTx) :=
    match tx.programInvocations with
    | none => some []
    | some invs => scanInvocations protocolFilter tx invs
  match findMatchingProtocol tx.programId with
  | some m =>
    match protocolFilter with
    | none => (processTransaction (topLevelInput tx m)).map (fun n => [n])
    | some f =>
      if m.protocol = f then
        (processTransaction (topLevelInput tx m)).map (fun n => [n])
      else
        invocationPart
  | none => invocationPart

/-- `main` from the stream filter, over an already-parsed array of raw
transactions: each transaction contributes its normalized form (or
nothing), and the first thrown `TypeError` aborts the batch. -/
def mainClassify (transactions : List RawTx) (protocolFilter : Option String) :
    Option (List NormalizedTx) :=
  match transactions with
  | [] => some []
  | tx :: rest => do
    let contribution ← processTx protocolFilter tx
    let more ← mainClassify rest protocolFilter
    pure (contribution ++ more)

/-- The stream-shaped container every analytics function consumes. -/
structure StreamData : Type where
  data : List NormalizedTx
deriving DecidableEq, Repr

/-- `getAllTransactions`: `limit ? transactions.slice(0, limit) :
transactions`.  A `limit` of `0` is falsy in JavaScript, so the whole
array is returned; `none` models an absent or `null` limit. -/
def getAllTransactions (stream : StreamData) (limit : Option Int) :
    List NormalizedTx :=
  match limit with
  | none => stream.data
  | some k => if k = 0 then stream.data else jsSliceTo stream.data k

/-- ASCII lower-casing of a string, the observable effect of
`toLowerCase()` on the protocol names this code compares. -/
def lowerStr (s : String) : String :=
  String.mk (s.data.map Char.toLower)

/-- `getTransactionsByProtocol`: case-insensitive protocol equality, with
the same falsy-limit slicing as `getAllTransactions`. -/
def getTransactionsByProtocol (stream : StreamData) (protocol : String)
    (limit : Option Int) : List NormalizedTx :=
  let transactions :=
    stream.data.filter (fun tx => lowerStr tx.protocol = lowerStr protocol)
  match limit with
  | none => transactions
  | some k => if k = 0 then transactions else jsSliceTo transactions k

/-- Result shape of `getProtocolVolume`. -/
structure VolumeResult : Type where
  protocol : String
  timeframe : Int
  volumeByToken : List (String × Rat)
  transactionCount : Nat
deriving DecidableEq, Repr

/-- The inner `forEach` of `getProtocolVolume`'s reducer:
`acc[key] = (acc[key] || 0) + Math.abs(transfer.amount)`. -/
def addTransferVolume (acc : List (String × Rat)) (t : TokenTransfer) :
    List (String × Rat) :=
  objSet acc t.mint ((objGet acc t.mint).getD 0 + |t.amount|)

/-- `getProtocolVolume`: keeps transactions of the protocol (exact
equality) that succeeded and are no older than `now - timeframe`, and
sums absolute transfer amounts per mint.  `now` is the
`Date.now()`-derived Unix-seconds value, passed explicitly. -/
def getProtocolVolume (stream : StreamData) (protocol : String)
    (timeframe now : Int) : VolumeResult :=
  let startTime := now - timeframe
  let transactions :=
    stream.data.filter
      (fun tx =>
        tx.protocol = protocol && startTime ≤ tx.timestamp && tx.success)
  let volumeByToken :=
    transactions.foldl
      (fun acc tx => tx.tokenTransfers.foldl addTransferVolume acc) []
  { protocol := protocol
    timeframe := timeframe
    volumeByToken := volumeByToken
    transactionCount := transactions.length }

/-- `getActiveWallets`: deduplicated `userWallet`s of successful
transactions of the protocol (a `null` wallet is a legitimate `Set`
element and is kept). -/
def getActiveWallets (stream : StreamData) (protocol : String) :
    List (Option String) :=
  jsSetList
    ((stream.data.filter (fun tx => tx.protocol = protocol && tx.success)).map
      (fun tx => tx.userWallet))

/-- Per-mint accumulator of `getTokenTransferStats` (with `uniqueWallets`
already in its final array form). -/
structure TransferStat : Type where
  totalVolume : Rat
  transferCount : Nat
  uniqueWallets : List String
  averageAmount : Rat
  decimals : Nat
deriving DecidableEq, Repr

/-- The inner `forEach` of `getTokenTransferStats`' reducer. -/
def addTransferStat (acc : List (String × TransferStat)) (t : TokenTransfer) :
    List (String × TransferStat) :=
  let cur :=
    (objGet acc t.mint).getD
      { totalVolume := 0
        transferCount := 0
        uniqueWallets := []
        averageAmount := 0
        decimals := t.decimals }
  let totalVolume := cur.totalVolume + |t.amount|
  let transferCount := cur.transferCount + 1
  objSet acc t.mint
    { totalVolume := totalVolume
      transferCount := transferCount
      uniqueWallets :=
        if t.owner ∈ cur.uniqueWallets then cur.uniqueWallets
        else cur.uniqueWallets ++ [t.owner]
      averageAmount := totalVolume / (transferCount : Rat)
      decimals := cur.decimals }

/-- `getTokenTransferStats`: per-mint volume/count/wallet statistics over
successful transactions of the protocol that have at least one
transfer. -/
def getTokenTransferStats (stream : StreamData) (protocol : String) :
    List (String × TransferStat) :=
  let transactions :=
    stream.data.filter
      (fun tx =>
        tx.protocol = protocol && tx.success &&
          decide (0 < tx.tokenTransfers.length))
  transactions.foldl (fun acc tx => tx.tokenTransfers.foldl addTransferStat acc)
    []

/-- The record handed to the alert callback by
`alertOnLargeTransactions`. -/
structure AlertRecord : Type where
  transactionId : String
  timestamp : Int
  value : Rat
  protocol : String
  type : Option String
deriving DecidableEq, Repr

/-- `alertOnLargeTransactions`, modelled by its observable effect: the
sequence of callback invocations, in input order, for transactions whose
total absolute transfer value reaches the threshold. -/
def alertOnLargeTransactions (stream : StreamData) (threshold : Rat) :
    List AlertRecord :=
  (stream.data.filter
      (fun tx =>
        threshold ≤ (tx.tokenTransfers.map (fun t => |t.amount|)).sum)).map
    (fun tx =>
      { transactionId := tx.transactionId
        timestamp := tx.timestamp
        value := (tx.tokenTransfers.map (fun t => |t.amount|)).sum
        protocol := tx.protocol
        type := tx.type })

/-- Per-protocol accumulator of `getMultiProtocolStats`; `uniqueUsers` is
the insertion-ordered `Set` of `userWallet`s (`none` is `null`). -/
structure MPStat : Type where
  transactionCount : Nat
  successRate : Rat
  uniqueUsers : List (Option String)
  totalVolume : Rat
  failedTxs : Nat
deriving DecidableEq, Repr

/-- The per-transaction step of `getMultiProtocolStats`: transactions with
a falsy (empty) protocol are skipped; otherwise the protocol's entry is
created on demand and updated. -/
def mpStep (stats : List (String × MPStat)) (tx : NormalizedTx) :
    List (String × MPStat) :=
  if tx.protocol = "" then stats
  else
    let cur :=
      (objGet stats tx.protocol).getD
        { transactionCount := 0
          successRate := 0
          uniqueUsers := []
          totalVolume := 0
          failedTxs := 0 }
    let txVolume := (tx.tokenTransfers.map (fun t => |t.amount|)).sum
    objSet stats tx.protocol
      { transactionCount := cur.transactionCount + 1
        successRate := cur.successRate
        uniqueUsers :=
          if tx.userWallet ∈ cur.uniqueUsers then cur.uniqueUsers
          else cur.uniqueUsers ++ [tx.userWallet]
        totalVolume := cur.totalVolume + txVolume
        failedTxs := cur.failedTxs + (if tx.success then 0 else 1) }

/-- The finalization pass of `getMultiProtocolStats`: every observed
protocol's success rate becomes `(count - failed) / count * 100`. -/
def mpFinalize (e : MPStat) : MPStat :=
  { e with
      successRate :=
        (((e.transactionCount : Rat) - (e.failedTxs : Rat)) /
            (e.transactionCount : Rat)) * 100 }

/-- `getMultiProtocolStats`: folds the stream into per-protocol counters,
then finalizes every entry's success rate. -/
def getMultiProtocolStats (stream : StreamData) : List (String × MPStat) :=
  (stream.data.foldl mpStep []).map (fun p => (p.1, mpFinalize p.2))

/-- Result shape of `getDailyStats`. -/
structure DailyStats : Type where
  date : String
  transactionCount : Nat
  uniqueUsers : Nat
  tokenVolumes : List (String × Rat)
  successRate : Rat
  failedTransactions : Nat
  averageTransactionSize : Rat
deriving DecidableEq, Repr

/-- `getDailyStats`: statistics over the protocol's transactions since the
start of the local day.  `startOfDay` (Unix seconds) and `dateStr` (the
ISO date) are the wall-clock values the source computes from `new
Date()`, passed explicitly. -/
def getDailyStats (stream : StreamData) (protocol : String)
    (startOfDay : Int) (dateStr : String) : DailyStats :=
  let todayTxs :=
    stream.data.filter
      (fun tx => tx.protocol = protocol && startOfDay ≤ tx.timestamp)
  let tokenVolumes :=
    todayTxs.foldl (fun acc tx => tx.tokenTransfers.foldl addTransferVolume acc)
      []
  { date := dateStr
    transactionCount := todayTxs.length
    uniqueUsers := (jsSetList (todayTxs.map (fun tx => tx.userWallet))).length
    tokenVolumes := tokenVolumes
    successRate :=
      if todayTxs.length = 0 then 0
      else
        (((todayTxs.filter (fun tx => tx.success)).length : Rat) /
            (todayTxs.length : Rat)) * 100
    failedTransactions := (todayTxs.filter (fun tx => !tx.success)).length
    averageTransactionSize :=
      if todayTxs.length = 0 then 0
      else (tokenVolumes.map (fun p => p.2)).sum / (todayTxs.length : Rat) }

/-- Per-mint accumulator of `searchTransactionsByWallet`'s
`tokenInteractions`; `lastInteraction` starts as `null`. -/
structure TokenInteraction : Type where
  totalVolume : Rat
  transactionCount : Nat
  lastInteraction : Option Int
deriving DecidableEq, Repr

/-- Result shape of `searchTransactionsByWallet`. -/
structure WalletSearchResult : Type where
  walletAddress : String
  transactionCount : Nat
  successRate : Rat
  protocols : List String
  tokenInteractions : List (String × TokenInteraction)
  transactions : List NormalizedTx
deriving DecidableEq, Repr

/-- The inner `forEach` of the `tokenInteractions` reducer:
`Math.max(acc.lastInteraction || 0, tx.timestamp)`. -/
def addInteraction (timestamp : Int) (acc : List (String × TokenInteraction))
    (t : TokenTransfer) : List (String × TokenInteraction) :=
  let cur :=
    (objGet acc t.mint).getD
      { totalVolume := 0, transactionCount := 0, lastInteraction := none }
  objSet acc t.mint
    { totalVolume := cur.totalVolume + |t.amount|
      transactionCount := cur.transactionCount + 1
      lastInteraction := some (max ((cur.lastInteraction).getD 0) timestamp) }

/-- The membership predicate of `searchTransactionsByWallet`: the wallet
is the user wallet, a transfer owner, or an account-change address. -/
def walletMatches (walletAddress : String) (tx : NormalizedTx) : Bool :=
  tx.userWallet == some walletAddress ||
    tx.tokenTransfers.any (fun t => t.owner = walletAddress) ||
    tx.accountChanges.any (fun c => c.address = walletAddress)

/-- The comparator order of `transactions.sort((a, b) => b.timestamp -
a.timestamp)`: descending timestamps. -/
def tsDescending (a b : NormalizedTx) : Prop :=
  b.timestamp ≤ a.timestamp

instance : DecidableRel tsDescending := fun a b =>
  inferInstanceAs (Decidable (b.timestamp ≤ a.timestamp))

/-- `searchTransactionsByWallet`.  `Array.prototype.sort` is a stable
in-place sort applied here to the fresh array produced by `filter`;
a stable sort with respect to this total preorder is exactly
`List.insertionSort`. -/
def searchTransactionsByWallet (stream : StreamData) (walletAddress : String) :
    WalletSearchResult :=
  let transactions := stream.data.filter (walletMatches walletAddress)
  { walletAddress := walletAddress
    transactionCount := transactions.length
    successRate :=
      if transactions.length = 0 then 0
      else
        (((transactions.filter (fun tx => tx.success)).length : Rat) /
            (transactions.length : Rat)) * 100
    protocols := jsSetList (transactions.map (fun tx => tx.protocol))
    tokenInteractions :=
      transactions.foldl
        (fun acc tx => tx.tokenTransfers.foldl (addInteraction tx.timestamp) acc)
        []
    transactions := List.insertionSort tsDescending transactions }

/-- Per-type accumulator of `calculateProtocolFees`' `feesByType`. -/
structure FeeByType : Type where
  total : Rat
  count : Nat
  average : Rat
deriving DecidableEq, Repr

/-- Per-protocol accumulator of `calculateProtocolFees`. -/
structure FeeStat : Type where
  totalFees : Rat
  transactionCount : Nat
  averageFee : Rat
  feesByType : List (String × FeeByType)
  highestFee : Rat × Option String
deriving DecidableEq, Repr

/-- The fee heuristic: absolute value of the sum of the negative account
balance changes of one transaction. -/
def txFee (tx : NormalizedTx) : Rat :=
  |(tx.accountChanges.foldl
      (fun sum change =>
        if change.balanceChange < 0 then sum + (change.balanceChange : Rat)
        else sum)
      0)|

/-- The per-transaction step of `calculateProtocolFees`' reducer. -/
def feeStep (protocolFilter : Option String) (acc : List (String × FeeStat))
    (tx : NormalizedTx) : List (String × FeeStat) :=
  if protocolFilter.isSome && protocolFilter ≠ some tx.protocol then acc
  else
    let protocolName := if tx.protocol = "" then "unknown" else tx.protocol
    let cur :=
      (objGet acc protocolName).getD
        { totalFees := 0
          transactionCount := 0
          averageFee := 0
          feesByType := []
          highestFee := (0, none) }
    let fee := txFee tx
    let totalFees := cur.totalFees + fee
    let transactionCount := cur.transactionCount + 1
    let txType :=
      match tx.type with
      | none => "unknown"
      | some t => if t = "" then "unknown" else t
    let curType :=
      (objGet cur.feesByType txType).getD { total := 0, count := 0, average := 0 }
    let typeTotal := curType.total + fee
    let typeCount := curType.count + 1
    objSet acc protocolName
      { totalFees := totalFees
        transactionCount := transactionCount
        averageFee := totalFees / (transactionCount : Rat)
        feesByType :=
          objSet cur.feesByType txType
            { total := typeTotal
              count := typeCount
              average := typeTotal / (typeCount : Rat) }
        highestFee :=
          if cur.highestFee.1 < fee then (fee, some tx.transactionId)
          else cur.highestFee }

/-- `calculateProtocolFees`: per-protocol fee statistics, optionally
restricted to one protocol. -/
def calculateProtocolFees (stream : StreamData)
    (protocolFilter : Option String) : List (String × FeeStat) :=
  stream.data.foldl (feeStep protocolFilter) []

/-- The `timeStats` of `calculateTotalValueTransferred`. -/
structure TimeStats : Type where
  firstTransfer : Option Int
  lastTransfer : Option Int
deriving DecidableEq, Repr

/-- Result shape of `calculateTotalValueTransferred`.  `largestTransfer`
is a `JsNum` because the source computes `Math.max` over a possibly empty
spread, which is `-Infinity` when no transfer matches. -/
structure ValueTransferredResult : Type where
  mintAddress : String
  totalTransfers : Nat
  totalVolume : Rat
  uniqueSenders : Nat
  averageTransferSize : Rat
  largestTransfer : JsNum
  decimals : Nat
  timeStats : TimeStats
  volumeByProtocol : List (String × Rat)
deriving DecidableEq, Repr

/-- `calculateTotalValueTransferred`: analysis of all transfers of one
mint across the stream. -/
def calculateTotalValueTransferred (stream : StreamData)
    (mintAddress : String) : ValueTransferredResult :=
  let transfers :=
    stream.data.flatMap
      (fun tx => tx.tokenTransfers.filter (fun t => t.mint = mintAddress))
  let matchingTxs :=
    stream.data.filter
      (fun tx => tx.tokenTransfers.any (fun t => t.mint = mintAddress))
  { mintAddress := mintAddress
    totalTransfers := transfers.length
    totalVolume := (transfers.map (fun t => |t.amount|)).sum
    uniqueSenders := (jsSetList (transfers.map (fun t => t.owner))).length
    averageTransferSize :=
      if transfers.length = 0 then 0
      else (transfers.map (fun t => |t.amount|)).sum / (transfers.length : Rat)
    largestTransfer := jsMaxNum (transfers.map (fun t => |t.amount|))
    decimals :=
      match transfers.head? with
      | none => 0
      | some t => t.decimals
    timeStats :=
      { firstTransfer :=
          if transfers.length = 0 then none
          else (matchingTxs.map (fun tx => tx.timestamp)).min?
        lastTransfer :=
          if transfers.length = 0 then none
          else (matchingTxs.map (fun tx => tx.timestamp)).max? }
    volumeByProtocol :=
      matchingTxs.foldl
        (fun acc tx =>
          let protocolName := if tx.protocol = "" then "unknown" else tx.protocol
          let volume :=
            ((tx.tokenTransfers.filter (fun t => t.mint = mintAddress)).map
                (fun t => |t.amount|)).sum
          objSet acc protocolName ((objGet acc protocolName).getD 0 + volume))
        [] }

/-- The parameter record destructured from `options` by the query
dispatcher.  `type` is the query tag; the remaining fields are the
per-query parameters. -/
structure QueryOptions : Type where
  type : String
  protocol : String
  limit : Option Int
  timeframe : Int
  threshold : Rat
  walletAddress : String
  mintAddress : String
deriving DecidableEq, Repr

/-- The sum of the heterogeneous return shapes of the dispatcher's
branches.  `passThrough` is the `default` branch returning the stream
itself; `alerts` is the observable callback trace of `alertLarge` (whose
JavaScript return value is `undefined`). -/
inductive QueryResult : Type where
  | txs : List NormalizedTx → QueryResult
  | volume : VolumeResult → QueryResult
  | wallets : List (Option String) → QueryResult
  | transferStats : List (String × TransferStat) → QueryResult
  | alerts : List AlertRecord → QueryResult
  | multiStats : List (String × MPStat) → QueryResult
  | daily : DailyStats → QueryResult
  | walletSearch : WalletSearchResult → QueryResult
  | fees : List (String × FeeStat) → QueryResult
  | valueTransferred : ValueTransferredResult → QueryResult
  | passThrough : StreamData → QueryResult
deriving DecidableEq, Repr

/-- The query dispatcher `main(stream, options)`: a `switch` on
`options.type` over the eleven recognized tags, with a pass-through
`default`.  The ambient wall-clock values needed by the time-based
queries are passed explicitly. -/
def dispatch (stream : StreamData) (options : QueryOptions) (now : Int)
    (startOfDay : Int) (dateStr : String) : QueryResult :=
  if options.type = "all" then
    QueryResult.txs (getAllTransactions stream options.limit)
  else if options.type = "byProtocol" then
    QueryResult.txs
      (getTransactionsByProtocol stream options.protocol options.limit)
  else if options.type = "volume" then
    QueryResult.volume
      (getProtocolVolume stream options.protocol options.timeframe now)
  else if options.type = "activeWallets" then
    QueryResult.wallets (getActiveWallets stream options.protocol)
  else if options.type = "transferStats" then
    QueryResult.transferStats (getTokenTransferStats stream options.protocol)
  else if options.type = "alertLarge" then
    QueryResult.alerts (alertOnLargeTransactions stream options.threshold)
  else if options.type = "multiProtocolStats" then
    QueryResult.multiStats (getMultiProtocolStats stream)
  else if options.type = "dailyStats" then
    QueryResult.daily (getDailyStats stream options.protocol startOfDay dateStr)
  else if options.type = "walletSearch" then
    QueryResult.walletSearch
      (searchTransactionsByWallet stream options.walletAddress)
  else if options.type = "protocolFees" then
    QueryResult.fees (calculateProtocolFees stream (some options.protocol))
  else if options.type = "valueTransferred" then
    QueryResult.valueTransferred
      (calculateTotalValueTransferred stream options.mintAddress)
  else
    QueryResult.passThrough stream

theorem objGet_map_update_ne {V : Type} (o : List (String × V)) (k : String)
    (v : V) (k' : String) (h : k' ≠ k) :
    objGet (o.map (fun p => if p.1 = k then (k, v) else p)) k' = objGet o k' := by
  induction o with
  | nil => simp [objGet]
  | cons p rest ih =>
    by_cases hp : p.1 = k
    · have hk : ¬ ((k : String) = k') := fun e => h e.symm
      have hp' : ¬ p.1 = k' := by rw [hp]; exact hk
      simp only [List.map_cons, if_pos hp]
      simp [objGet, List.find?_cons, hk, hp', objGet] at ih ⊢
      exact ih
    · by_cases hp' : p.1 = k'
      · rw [List.map_cons, if_neg hp]
        simp [objGet, List.find?_cons, hp']
      · simp only [List.map_cons, if_neg hp]
        simp [objGet, List.find?_cons, hp'] at ih ⊢
        exact ih

theorem objGet_map_update_self {V : Type} (o : List (String × V)) (k : String)
    (v : V) (hs : (o.find? (fun p => p.1 = k)).isSome = true) :
    objGet (o.map (fun p => if p.1 = k then (k, v) else p)) k = some v := by
  induction o with
  | nil => simp at hs
  | cons p rest ih =>
    by_cases hp : p.1 = k
    · simp [objGet, List.find?_cons, if_pos hp]
    · simp only [List.find?_cons, hp, decide_eq_true_eq] at hs
      simp only [List.map_cons, if_neg hp]
      have := ih (by simpa using hs)
      simpa [objGet, List.find?_cons, hp] using this

theorem objGet_append_single_ne {V : Type} (o : List (String × V)) (k : String)
    (v : V) (k' : String) (h : k' ≠ k) :
    objGet (o ++ [(k, v)]) k' = objGet o k' := by
  have hk : ¬ ((k : String) = k') := fun e => h e.symm
  induction o with
  | nil => simp [objGet, List.find?, hk]
  | cons p rest ih =>
    by_cases hp' : p.1 = k'
    · simp [objGet, List.find?_cons, hp']
    · simp [objGet, List.find?_cons, hp'] at ih ⊢
      exact ih

theorem objGet_append_single_self {V : Type} (o : List (String × V))
    (k : String) (v : V) (hn : o.find? (fun p => p.1 = k) = none) :
    objGet (o ++ [(k, v)]) k = some v := by
  induction o with
  | nil => simp [objGet, List.find?]
  | cons p rest ih =>
    by_cases hp : p.1 = k
    · simp [List.find?_cons, hp] at hn
    · simp only [List.find?_cons, hp] at hn
      have := ih (by simpa using hn)
      simpa [objGet, List.find?_cons, hp] using this

theorem objGet_objSet_self {V : Type} (o : List (String × V)) (k : String)
    (v : V) : objGet (objSet o k v) k = some v := by
  unfold objSet
  by_cases hs : (o.find? (fun p => p.1 = k)).isSome
  · simp only [hs, if_true]
    exact objGet_map_update_self o k v hs
  · simp only [hs, if_false]
    exact objGet_append_single_self o k v (Option.not_isSome_iff_eq_none.mp hs)

theorem objGet_objSet_ne {V : Type} (o : List (String × V)) (k : String)
    (v : V) (k' : String) (h : k' ≠ k) :
    objGet (objSet o k v) k' = objGet o k' := by
  unfold objSet
  by_cases hs : (o.find? (fun p => p.1 = k)).isSome
  · simp only [hs, if_true]
    exact objGet_map_update_ne o k v k' h
  · simp only [hs, if_false]
    exact objGet_append_single_ne o k v k' h

theorem objGet_mapValues {V W : Type} (f : V → W) (o : List (String × V))
    (k : String) :
    objGet (o.map (fun p => (p.1, f p.2))) k = (objGet o k).map f := by
  induction o with
  | nil => simp [objGet]
  | cons p rest ih =>
    by_cases hp : p.1 = k
    · simp [objGet, List.find?_cons, hp]
    · simp [objGet, List.find?_cons, hp] at ih ⊢
      exact ih

theorem addTransferVolume_get (acc : List (String × Rat)) (t : TokenTransfer)
    (m : String) :
    (objGet (addTransferVolume acc t) m).getD 0 =
      (objGet acc m).getD 0 + (if t.mint = m then |t.amount| else 0) := by
  unfold addTransferVolume
  by_cases hm : t.mint = m
  · subst hm
    rw [objGet_objSet_self]
    simp
  · rw [objGet_objSet_ne _ _ _ _ (fun e => hm e.symm)]
    simp [hm]

theorem foldTransfers_get (ts : List TokenTransfer)
    (acc : List (String × Rat)) (m : String) :
    (objGet (ts.foldl addTransferVolume acc) m).getD 0 =
      (objGet acc m).getD 0 +
        ((ts.filter (fun t => t.mint = m)).map (fun t => |t.amount|)).sum := by
  induction ts generalizing acc with
  | nil => simp
  | cons t rest ih =>
    rw [List.foldl_cons, ih, addTransferVolume_get]
    by_cases hm : t.mint = m
    · simp [List.filter_cons, hm]
      ring
    · simp [List.filter_cons, hm]

theorem foldVolume_get (txs : List NormalizedTx) (acc : List (String × Rat))
    (m : String) :
    (objGet
        (txs.foldl (fun acc tx => tx.tokenTransfers.foldl addTransferVolume acc)
          acc) m).getD 0 =
      (objGet acc m).getD 0 +
        (txs.map
            (fun tx =>
              ((tx.tokenTransfers.filter (fun t => t.mint = m)).map
                  (fun t => |t.amount|)).sum)).sum := by
  induction txs generalizing acc with
  | nil => simp
  | cons tx rest ih =>
    rw [List.foldl_cons, ih, foldTransfers_get]
    simp only [List.map_cons, List.sum_cons]
    ring

theorem filter_not_length {α : Type} (p : α → Bool) (l : List α) :
    (l.filter p).length + (l.filter (fun x => !(p x))).length = l.length := by
  induction l with
  | nil => simp
  | cons x rest ih =>
    cases hx : p x <;> simp [List.filter_cons, hx] <;> omega

theorem rate_bounds (sc n : Nat) (h : sc ≤ n) :
    0 ≤ ((sc : Rat) / (n : Rat)) * 100 ∧
      ((sc : Rat) / (n : Rat)) * 100 ≤ 100 := by
  constructor
  · positivity
  · rcases Nat.eq_zero_or_pos n with hn | hn
    · subst hn
      norm_num
    · have hn' : (0 : Rat) < (n : Rat) := by exact_mod_cast hn
      have hsc : (sc : Rat) ≤ (n : Rat) := by exact_mod_cast h
      have hd : (sc : Rat) / (n : Rat) ≤ 1 := (div_le_one hn').mpr hsc
      nlinarith

/-- The flat-shaped raw transaction of the C1 scenario: a Jupiter swap
with exactly the fields listed in the claim (no `type`, no
`rawInstruction`, no `programInvocations`). -/
def c1RawTx : RawTx :=
  { programId := "JUP6LkbZbjS1jKKwapdHNy74zcZ3tLUZoi5QNyVTaV4"
    accounts := [⟨"acct0", 100, 90⟩, ⟨"acct1", 50, 50⟩, ⟨"w1", 10, 15⟩]
    logs := ["Program log: Instruction: Swap"]
    signature := "sigA"
    slot := 1
    blockTime := 1000
    success := true
    tokenBalanceChanges :=
      [⟨"So11111111111111111111111111111111111111112", "w1",
        ⟨5, 9, "5000000000"⟩⟩]
    programInvocations := none
    type := none
    rawInstruction := none }

/-- The C1 scenario transaction with a `rawInstruction` added, the one
extra field that lets `processTransaction` finish. -/
def c1RawTxFixed : RawTx :=
  { c1RawTx with rawInstruction := some ⟨4, "6SAF3BYcF4JQmG1GbDbMLt7", [], []⟩ }

/-- C1 counterexample: on the exact scenario input, the classification
pipeline throws (`processTransaction` reads `.index` of the absent
`rawInstruction`), modelled as `none`; in particular it does not yield
exactly one normalized transaction. -/
theorem c1_counterexample :
    mainClassify [c1RawTx] none = none ∧
      ¬ ∃ n : NormalizedTx, mainClassify [c1RawTx] none = some [n] := by
  have h : mainClassify [c1RawTx] none = none := by decide
  exact ⟨h, fun ⟨n, hn⟩ => by rw [h] at hn; exact Option.noConfusion hn⟩

/-- C1 (amended): the pipeline throws a `TypeError` on the scenario input
because the flat transaction has no `rawInstruction`; if the input also
carries a `rawInstruction`, the pipeline yields exactly one normalized
transaction with protocol `JUPITER` and subType `SWAPS`, but its `type`
is the raw transaction's own (absent) `type` field — the log-derived
`"Swap"` is only computed on the invocation-match path, never for a
top-level match. -/
theorem c1_amended :
    mainClassify [c1RawTx] none = none ∧
      (mainClassify [c1RawTxFixed] none).map
          (fun l => l.map (fun n => (n.protocol, n.subType, n.type))) =
        some [("JUPITER", "SWAPS", (none : Option String))] := by decide

/-- A normalized transaction with the given id, timestamp, protocol,
success flag, user wallet, transfers and account changes; all other
fields fixed.  Used to build concrete test streams. -/
def mkTx (id : String) (ts : Int) (proto : String) (ok : Bool)
    (w : Option String) (transfers : List TokenTransfer)
    (changes : List AccountChange) : NormalizedTx :=
  { transactionId := id
    blockSlot := 0
    timestamp := ts
    success := ok
    type := some "Swap"
    protocol := proto
    subType := "S"
    program := "prog"
    userWallet := w
    userBalanceChange := 0
    tokenTransfers := transfers
    accountChanges := changes
    instruction := ⟨0, "d"⟩
    logs := [] }

/-- A one-transaction stream used by several concrete evaluations. -/
def oneTxStream : StreamData :=
  ⟨[mkTx "t1" 10 "JUPITER" true (some "w1") [] []]⟩

/-- C3 counterexample: with `limit = 0` (falsy in JavaScript) and a
one-element stream, `getAllTransactions` returns the whole array, whose
length `1` is not `min(0, 1) = 0`. -/
theorem c3_counterexample :
    (getAllTransactions oneTxStream (some 0)).length ≠
      min ((0 : Int).toNat) oneTxStream.data.length := by decide

/-- C3 (amended): for every positive `limit`, `getAllTransactions`
returns the prefix of the data array of length `min(limit, |set|)`,
preserving the original order (`limit = 0` is falsy and returns the
entire array instead, and a negative `limit` slices from the end). -/
theorem c3_amended (s : StreamData) (k : Int) (h : 1 ≤ k) :
    getAllTransactions s (some k) = s.data.take k.toNat ∧
      (getAllTransactions s (some k)).length = min k.toNat s.data.length := by
  have hk0 : ¬ (k = 0) := by omega
  have hkneg : ¬ (k < 0) := by omega
  have h1 : getAllTransactions s (some k) = s.data.take k.toNat := by
    unfold getAllTransactions jsSliceTo
    simp only [if_neg hk0, if_neg hkneg]
    have he : (min k ((s.data.length : Int))).toNat = min k.toNat s.data.length := by
      omega
    rw [he, List.take_eq_take]
    omega
  refine ⟨h1, ?_⟩
  rw [h1, List.length_take]

/-- C3 witness: the amended statement evaluated at a concrete stream and
`limit = 2`. -/
theorem c3_witness :
    (1 : Int) ≤ 2 ∧
      (getAllTransactions oneTxStream (some 2) =
          oneTxStream.data.take ((2 : Int).toNat) ∧
        (getAllTransactions oneTxStream (some 2)).length =
          min ((2 : Int).toNat) oneTxStream.data.length) :=
  ⟨by decide, c3_amended oneTxStream 2 (by decide)⟩

/-- A stream whose only transaction transfers mint `mintA`, so a query
for `mintB` has an empty transfer domain. -/
def c2Stream : StreamData :=
  ⟨[mkTx "t1" 5 "P" true (some "w") [⟨"mintA", "w", 3, 6, "3000000"⟩] []]⟩

/-- C2 counterexample: over zero matching transfers `largestTransfer` is
`Math.max()` of an empty spread, i.e. `-Infinity` — not the defined
sentinel `0` (and the code can never produce `null` there, the field is
always numeric). -/
theorem c2_counterexample :
    (calculateTotalValueTransferred c2Stream "mintB").largestTransfer =
        JsNum.negInf ∧
      (calculateTotalValueTransferred c2Stream "mintB").largestTransfer ≠
        JsNum.num 0 := by decide

/-- C2 (amended): when no transfer of the queried mint exists,
`calculateTotalValueTransferred` does not throw (it is a total function
of the stream), its count/volume/average aggregates resolve to `0`, its
time stats resolve to `null`, but `largestTransfer` resolves to
`-Infinity`, not to `0` or `null`. -/
theorem c2_amended (s : StreamData) (mint : String)
    (h : ∀ tx ∈ s.data, ∀ t ∈ tx.tokenTransfers, ¬ (t.mint = mint)) :
    (calculateTotalValueTransferred s mint).largestTransfer = JsNum.negInf ∧
      (calculateTotalValueTransferred s mint).totalTransfers = 0 ∧
      (calculateTotalValueTransferred s mint).totalVolume = 0 ∧
      (calculateTotalValueTransferred s mint).averageTransferSize = 0 ∧
      (calculateTotalValueTransferred s mint).uniqueSenders = 0 ∧
      (calculateTotalValueTransferred s mint).timeStats.firstTransfer = none ∧
      (calculateTotalValueTransferred s mint).timeStats.lastTransfer = none := by
  have hT :
      s.data.flatMap
          (fun tx => tx.tokenTransfers.filter (fun t => t.mint = mint)) = [] := by
    rw [List.flatMap_eq_nil_iff]
    intro tx htx
    rw [List.filter_eq_nil_iff]
    intro t ht
    simpa using h tx htx t ht
  simp [calculateTotalValueTransferred, hT, jsMaxNum, jsSetList]

/-- C2 witness: the amended statement evaluated at the concrete stream
with no `mintB` transfers. -/
theorem c2_witness :
    (∀ tx ∈ c2Stream.data, ∀ t ∈ tx.tokenTransfers, ¬ (t.mint = "mintB")) ∧
      (calculateTotalValueTransferred c2Stream "mintB").largestTransfer =
        JsNum.negInf :=
  ⟨by decide, (c2_amended c2Stream "mintB" (by decide)).1⟩

/-- A stream with one successful transaction of protocol `P` whose
`userWallet` is `null`. -/
def c10Stream : StreamData := ⟨[mkTx "t1" 5 "P" true none [] []]⟩

/-- C10: wallet lists are not null-filtered — for a concrete stream with
a successful protocol-`P` transaction whose `userWallet` is `null`, both
`getActiveWallets` and the `uniqueUsers` of `getMultiProtocolStats`
contain `null`. -/
theorem c10_null_wallets :
    (none : Option String) ∈ getActiveWallets c10Stream "P" ∧
      ∃ e : MPStat, objGet (getMultiProtocolStats c10Stream) "P" = some e ∧
        (none : Option String) ∈ e.uniqueUsers := by
  refine ⟨by decide, ?_⟩
  have hmap :
      (objGet (getMultiProtocolStats c10Stream) "P").map
          (fun e => e.uniqueUsers) = some [none] := by decide
  cases hg : objGet (getMultiProtocolStats c10Stream) "P" with
  | none => rw [hg] at hmap; exact Option.noConfusion hmap
  | some e =>
    rw [hg] at hmap
    refine ⟨e, rfl, ?_⟩
    have he : e.uniqueUsers = [none] := by simpa using hmap
    rw [he]
    exact List.mem_singleton.mpr rfl

theorem scanInvocations_all_filtered (p : String) (tx : RawTx)
    (invs : List ProgramInvocation)
    (h : ∀ inv ∈ invs,
        (findMatchingProtocol inv.programId).all (fun mm => mm.protocol != p)) :
    scanInvocations (some p) tx invs = some [] := by
  induction invs with
  | nil => rfl
  | cons inv rest ih =>
    have hinv := h inv (List.mem_cons_self inv rest)
    have hrest := fun i hi => h i (List.mem_cons_of_mem inv hi)
    unfold scanInvocations
    cases hm : findMatchingProtocol inv.programId with
    | none => exact ih hrest
    | some m =>
      rw [hm] at hinv
      simp only [Option.all_some, bne_iff_ne, ne_eq, decide_eq_true_eq] at hinv
      simp only [if_neg hinv]
      exact ih hrest

theorem processTx_filtered_drop (tx : RawTx) (p : String) (m : ProtocolMatch)
    (hTop : findMatchingProtocol tx.programId = some m)
    (hNe : m.protocol ≠ p)
    (hInv : ∀ inv ∈ tx.programInvocations.getD [],
        (findMatchingProtocol inv.programId).all (fun mm => mm.protocol != p)) :
    processTx (some p) tx = some [] := by
  unfold processTx
  rw [hTop]
  simp only [if_neg hNe]
  cases hpi : tx.programInvocations with
  | none => rfl
  | some invs =>
    apply scanInvocations_all_filtered
    intro i hi
    have := hInv i
    rw [hpi] at this
    exact this (by simpa using hi)

/-- C4: with a protocol filter, a transaction whose top-level program id
matches the registry under a different protocol, and none of whose
invocations matches the filtered protocol, is dropped entirely: it
contributes nothing to the batch output (and dropping is not an error —
its per-transaction processing returns an empty contribution, not a
throw). -/
theorem c4_filtered_mismatch_dropped (pre post : List RawTx) (tx : RawTx)
    (p : String) (m : ProtocolMatch)
    (hTop : findMatchingProtocol tx.programId = some m)
    (hNe : m.protocol ≠ p)
    (hInv : ∀ inv ∈ tx.programInvocations.getD [],
        (findMatchingProtocol inv.programId).all (fun mm => mm.protocol != p)) :
    processTx (some p) tx = some [] ∧
      mainClassify (pre ++ tx :: post) (some p) =
        mainClassify (pre ++ post) (some p) := by
  have h1 := processTx_filtered_drop tx p m hTop hNe hInv
  have hcons : ∀ (t : RawTx) (rest : List RawTx),
      mainClassify (t :: rest) (some p) =
        (processTx (some p) t).bind
          (fun contribution =>
            (mainClassify rest (some p)).bind
              (fun more => some (contribution ++ more))) := fun t rest => rfl
  refine ⟨h1, ?_⟩
  induction pre with
  | nil =>
    simp only [List.nil_append]
    rw [hcons, h1]
    cases h2 : mainClassify post (some p) <;> simp
  | cons t rest ih =>
    simp only [List.cons_append] at ih ⊢
    rw [hcons, hcons, ih]

/-- A raw transaction whose top level matches MARGINFI and whose only
invocation matches RAYDIUM — so a JUPITER filter matches neither. -/
def c4RawTx : RawTx :=
  { programId := "MFv2hWf31Z9kbCa1snEPYctwafyhdvnV7FZnsebVacA"
    accounts := []
    logs := []
    signature := "sigC4"
    slot := 2
    blockTime := 50
    success := true
    tokenBalanceChanges := []
    programInvocations :=
      some [⟨"675kPX9MHTjS2zt1qfr1NYHuzeLXfQM9H24wFSUt1Mp8", ⟨0, "d", [], []⟩⟩]
    type := none
    rawInstruction := none }

/-- C4 witness: the theorem applied to the concrete MARGINFI-topped,
RAYDIUM-invoking transaction under a JUPITER filter. -/
theorem c4_witness :
    processTx (some "JUPITER") c4RawTx = some [] ∧
      mainClassify ([] ++ c4RawTx :: []) (some "JUPITER") =
        mainClassify ([] ++ []) (some "JUPITER") :=
  c4_filtered_mismatch_dropped [] [] c4RawTx "JUPITER" ⟨"MARGINFI", "MAIN"⟩
    (by decide) (by decide) (by decide)

/-- C5: `getProtocolVolume` includes exactly the transactions with the
protocol (exact equality), `success = true` and timestamp at least
`now - timeframe`; `transactionCount` is the number of included
transactions; and `volumeByToken` maps every mint to the sum of the
absolute transfer amounts of that mint over the included transactions
(a mint with no transfers reads as `0`/absent). -/
theorem c5_protocol_volume (s : StreamData) (protocol : String)
    (timeframe now : Int) (m : String) :
    (∀ tx : NormalizedTx,
        tx ∈ s.data.filter
            (fun tx =>
              tx.protocol = protocol && now - timeframe ≤ tx.timestamp &&
                tx.success) ↔
          tx ∈ s.data ∧ tx.protocol = protocol ∧ tx.success = true ∧
            now - timeframe ≤ tx.timestamp) ∧
      (getProtocolVolume s protocol timeframe now).transactionCount =
        (s.data.filter
            (fun tx =>
              tx.protocol = protocol && now - timeframe ≤ tx.timestamp &&
                tx.success)).length ∧
      (objGet (getProtocolVolume s protocol timeframe now).volumeByToken
          m).getD 0 =
        ((s.data.filter
              (fun tx =>
                tx.protocol = protocol && now - timeframe ≤ tx.timestamp &&
                  tx.success)).map
            (fun tx =>
              ((tx.tokenTransfers.filter (fun t => t.mint = m)).map
                  (fun t => |t.amount|)).sum)).sum := by
  refine ⟨?_, rfl, ?_⟩
  · intro tx
    rw [List.mem_filter]
    simp only [Bool.and_eq_true, decide_eq_true_eq]
    constructor
    · rintro ⟨hmem, ⟨⟨hp, ht⟩, hs⟩⟩
      exact ⟨hmem, hp, hs, ht⟩
    · rintro ⟨hmem, hp, hs, ht⟩
      exact ⟨hmem, ⟨⟨hp, ht⟩, hs⟩⟩
  · show (objGet
        ((s.data.filter _).foldl
          (fun acc tx => tx.tokenTransfers.foldl addTransferVolume acc) [])
        m).getD 0 = _
    rw [foldVolume_get]
    simp [objGet]

instance : IsTotal NormalizedTx tsDescending :=
  ⟨fun a b => le_total b.timestamp a.timestamp⟩

instance : IsTrans NormalizedTx tsDescending :=
  ⟨fun _ _ _ h1 h2 => le_trans h2 h1⟩

/-- Two successful protocol-`P` transactions of the same wallet with the
same timestamp. -/
def c6Stream : StreamData :=
  ⟨[mkTx "a" 5 "P" true (some "w") [] [], mkTx "b" 5 "P" true (some "w") [] []]⟩

/-- C6 counterexample: with two matching transactions sharing a
timestamp, the result of `searchTransactionsByWallet` is not strictly
descending in timestamp (the comparator admits ties). -/
theorem c6_counterexample :
    ¬ ((searchTransactionsByWallet c6Stream "w").transactions.Pairwise
        (fun a b => b.timestamp < a.timestamp)) := by decide

/-- C6 (amended): the transactions returned by
`searchTransactionsByWallet` are sorted by non-increasing (descending,
but not strictly when timestamps tie) timestamp, are exactly the
matching transactions of the stream, and a transaction in which the
wallet appears only as the owner of a token transfer is included. -/
theorem c6_wallet_search_sorted (s : StreamData) (w : String) :
    List.Sorted tsDescending (searchTransactionsByWallet s w).transactions ∧
      ((searchTransactionsByWallet s w).transactions).Perm
        (s.data.filter (walletMatches w)) ∧
      ∀ tx ∈ s.data, (∃ t ∈ tx.tokenTransfers, t.owner = w) →
        tx ∈ (searchTransactionsByWallet s w).transactions := by
  refine ⟨?_, ?_, ?_⟩
  · exact List.sorted_insertionSort tsDescending (s.data.filter (walletMatches w))
  · exact List.perm_insertionSort tsDescending (s.data.filter (walletMatches w))
  · rintro tx htx ⟨t, ht, hw⟩
    have hmem : tx ∈ s.data.filter (walletMatches w) := by
      rw [List.mem_filter]
      refine ⟨htx, ?_⟩
      unfold walletMatches
      simp only [Bool.or_eq_true, List.any_eq_true, decide_eq_true_eq]
      exact Or.inl (Or.inr ⟨t, ht, hw⟩)
    exact ((List.perm_insertionSort tsDescending
        (s.data.filter (walletMatches w))).mem_iff).mpr hmem

/-- A transaction in which wallet `w` appears only as the owner of a
token transfer (its `userWallet` is `null`). -/
def c6OwnerTx : NormalizedTx :=
  mkTx "o" 7 "P" true none [⟨"M", "w", 1, 0, "1"⟩] []

/-- The one-transaction stream around `c6OwnerTx`. -/
def c6OwnerStream : StreamData := ⟨[c6OwnerTx]⟩

/-- C6 witness: the amended theorem applied to the concrete
owner-only-wallet stream; the transaction is found. -/
theorem c6_witness :
    c6OwnerTx ∈ c6OwnerStream.data ∧
      (∃ t ∈ c6OwnerTx.tokenTransfers, t.owner = "w") ∧
      c6OwnerTx ∈ (searchTransactionsByWallet c6OwnerStream "w").transactions :=
  ⟨by decide, by decide,
    (c6_wallet_search_sorted c6OwnerStream "w").2.2 c6OwnerTx (by decide)
      (by decide)⟩

theorem guarded_rate_spec (l : List NormalizedTx) :
    (0 : Rat) ≤
        (if l.length = 0 then (0 : Rat)
          else
            (((l.filter (fun tx => tx.success)).length : Rat) /
                (l.length : Rat)) * 100) ∧
      (if l.length = 0 then (0 : Rat)
          else
            (((l.filter (fun tx => tx.success)).length : Rat) /
                (l.length : Rat)) * 100) ≤ 100 ∧
      (l.length = 0 →
        (if l.length = 0 then (0 : Rat)
          else
            (((l.filter (fun tx => tx.success)).length : Rat) /
                (l.length : Rat)) * 100) = 0) ∧
      (0 < l.length →
        (if l.length = 0 then (0 : Rat)
          else
            (((l.filter (fun tx => tx.success)).length : Rat) /
                (l.length : Rat)) * 100) =
          (((l.length : Rat) -
                ((l.filter (fun tx => !tx.success)).length : Rat)) /
              (l.length : Rat)) * 100) := by
  by_cases h0 : l.length = 0
  · simp [h0]
  · have hsplit := filter_not_length (fun tx => tx.success) l
    have hle : (l.filter (fun tx => tx.success)).length ≤ l.length :=
      List.length_filter_le _ _
    have hb := rate_bounds (l.filter (fun tx => tx.success)).length l.length hle
    refine ⟨by simpa [h0] using hb.1, by simpa [h0] using hb.2, fun hc => absurd hc h0, fun _ => ?_⟩
    rw [if_neg h0]
    have hcast : ((l.filter (fun tx => tx.success)).length : Rat) =
        (l.length : Rat) - ((l.filter (fun tx => !tx.success)).length : Rat) := by
      have := hsplit
      push_cast [← this]
      ring
    rw [hcast]

theorem mpFold_invariant (txs : List NormalizedTx)
    (acc : List (String × MPStat))
    (hacc : ∀ p e, objGet acc p = some e →
        0 < e.transactionCount ∧ e.failedTxs ≤ e.transactionCount) :
    ∀ p e, objGet (txs.foldl mpStep acc) p = some e →
      0 < e.transactionCount ∧ e.failedTxs ≤ e.transactionCount := by
  induction txs generalizing acc with
  | nil => simpa using hacc
  | cons tx rest ih =>
    rw [List.foldl_cons]
    apply ih
    intro p e he
    unfold mpStep at he
    by_cases hproto : tx.protocol = ""
    · rw [if_pos hproto] at he
      exact hacc p e he
    · rw [if_neg hproto] at he
      by_cases hp : p = tx.protocol
      · subst hp
        rw [objGet_objSet_self] at he
        have hcur :
            (((objGet acc tx.protocol).getD
                  { transactionCount := 0, successRate := 0, uniqueUsers := [],
                    totalVolume := 0, failedTxs := 0 })).failedTxs ≤
              (((objGet acc tx.protocol).getD
                  { transactionCount := 0, successRate := 0, uniqueUsers := [],
                    totalVolume := 0, failedTxs := 0 })).transactionCount := by
          cases hget : objGet acc tx.protocol with
          | none => simp [hget]
          | some e0 => simpa [hget] using (hacc tx.protocol e0 hget).2
        cases he
        constructor
        · simp
        · simp only
          cases tx.success <;> simp <;> omega
      · rw [objGet_objSet_ne _ _ _ _ hp] at he
        exact hacc p e he

/-- C7: `successRate` is always a percentage in `[0, 100]` equal to
`(count - failed) / count * 100` over the group's transactions, and is
`0` when the group's count is `0` — for `getDailyStats` and
`searchTransactionsByWallet` via their explicit zero-guard, and for
every protocol entry of `getMultiProtocolStats` (whose groups always
have a positive count, so the zero case cannot arise there). -/
theorem c7_success_rate (s : StreamData) (protocol : String)
    (startOfDay : Int) (dateStr : String) (w : String) :
    ((0 : Rat) ≤ (getDailyStats s protocol startOfDay dateStr).successRate ∧
        (getDailyStats s protocol startOfDay dateStr).successRate ≤ 100 ∧
        ((getDailyStats s protocol startOfDay dateStr).transactionCount = 0 →
          (getDailyStats s protocol startOfDay dateStr).successRate = 0) ∧
        (0 < (getDailyStats s protocol startOfDay dateStr).transactionCount →
          (getDailyStats s protocol startOfDay dateStr).successRate =
            ((((getDailyStats s protocol startOfDay dateStr).transactionCount :
                    Rat) -
                  ((getDailyStats s protocol startOfDay
                        dateStr).failedTransactions : Rat)) /
                ((getDailyStats s protocol startOfDay dateStr).transactionCount :
                  Rat)) * 100)) ∧
      ((0 : Rat) ≤ (searchTransactionsByWallet s w).successRate ∧
        (searchTransactionsByWallet s w).successRate ≤ 100 ∧
        ((searchTransactionsByWallet s w).transactionCount = 0 →
          (searchTransactionsByWallet s w).successRate = 0) ∧
        (0 < (searchTransactionsByWallet s w).transactionCount →
          (searchTransactionsByWallet s w).successRate =
            ((((searchTransactionsByWallet s w).transactionCount : Rat) -
                  (((s.data.filter (walletMatches w)).filter
                        (fun tx => !tx.success)).length : Rat)) /
                ((searchTransactionsByWallet s w).transactionCount : Rat)) *
              100)) ∧
      (∀ p e, objGet (getMultiProtocolStats s) p = some e →
        0 < e.transactionCount ∧
          (0 : Rat) ≤ e.successRate ∧ e.successRate ≤ 100 ∧
          e.successRate =
            (((e.transactionCount : Rat) - (e.failedTxs : Rat)) /
                (e.transactionCount : Rat)) * 100) := by
  refine ⟨?_, ?_, ?_⟩
  · exact guarded_rate_spec
      (s.data.filter (fun tx => tx.protocol = protocol && startOfDay ≤ tx.timestamp))
  · exact guarded_rate_spec (s.data.filter (walletMatches w))
  · intro p e he
    unfold getMultiProtocolStats at he
    rw [objGet_mapValues] at he
    cases hget : objGet (s.data.foldl mpStep []) p with
    | none => rw [hget] at he; exact Option.noConfusion he
    | some e0 =>
      rw [hget] at he
      have he' : mpFinalize e0 = e := by simpa using he
      have hinv := mpFold_invariant s.data []
        (fun p e hx => by simp [objGet] at hx) p e0 hget
      subst he'
      have hc0 : (0 : Rat) < (e0.transactionCount : Rat) := by
        exact_mod_cast hinv.1
      have hf : (e0.failedTxs : Rat) ≤ (e0.transactionCount : Rat) := by
        exact_mod_cast hinv.2
      refine ⟨hinv.1, ?_, ?_, rfl⟩
      · show (0 : Rat) ≤
          (((e0.transactionCount : Rat) - (e0.failedTxs : Rat)) /
              (e0.transactionCount : Rat)) * 100
        have hnum : (0 : Rat) ≤ (e0.transactionCount : Rat) - (e0.failedTxs : Rat) := by
          linarith
        positivity
      · show (((e0.transactionCount : Rat) - (e0.failedTxs : Rat)) /
              (e0.transactionCount : Rat)) * 100 ≤ 100
        have hq : ((e0.transactionCount : Rat) - (e0.failedTxs : Rat)) /
            (e0.transactionCount : Rat) ≤ 1 := by
          rw [div_le_one hc0]
          linarith
        nlinarith

/-- C7 witness: the theorem applied to a concrete one-transaction
stream; the daily-stats success rate is within bounds. -/
theorem c7_witness :
    (0 : Rat) ≤ (getDailyStats oneTxStream "JUPITER" 0 "2024-12-22").successRate ∧
      (getDailyStats oneTxStream "JUPITER" 0 "2024-12-22").successRate ≤ 100 :=
  ⟨(c7_success_rate oneTxStream "JUPITER" 0 "2024-12-22" "w").1.1,
    (c7_success_rate oneTxStream "JUPITER" 0 "2024-12-22" "w").1.2.1⟩

/-- C8: an options record whose `type` is none of the eleven recognized
query tags falls through the dispatcher's `default` branch and the input
stream itself is returned unchanged — pass-through, not an error. -/
theorem c8_unrecognized_pass_through (s : StreamData) (o : QueryOptions)
    (now startOfDay : Int) (dateStr : String)
    (h : o.type ∉ (["all", "byProtocol", "volume", "activeWallets",
        "transferStats", "alertLarge", "multiProtocolStats", "dailyStats",
        "walletSearch", "protocolFees", "valueTransferred"] : List String)) :
    dispatch s o now startOfDay dateStr = QueryResult.passThrough s := by
  simp only [List.mem_cons, List.not_mem_nil, or_false] at h
  push_neg at h
  obtain ⟨h1, h2, h3, h4, h5, h6, h7, h8, h9, h10, h11⟩ := h
  simp [dispatch, h1, h2, h3, h4, h5, h6, h7, h8, h9, h10, h11]

/-- An options record carrying an unrecognized (future) query tag. -/
def c8Options : QueryOptions :=
  ⟨"futureQueryType", "P", none, 0, 0, "w", "m"⟩

/-- C8 witness: the theorem applied to a concrete stream and a concrete
unrecognized tag. -/
theorem c8_witness :
    ("futureQueryType" ∉ (["all", "byProtocol", "volume", "activeWallets",
        "transferStats", "alertLarge", "multiProtocolStats", "dailyStats",
        "walletSearch", "protocolFees", "valueTransferred"] : List String)) ∧
      dispatch oneTxStream c8Options 0 0 "d" =
        QueryResult.passThrough oneTxStream :=
  ⟨by decide,
    c8_unrecognized_pass_through oneTxStream c8Options 0 0 "d" (by decide)⟩
